import Mathlib

set_option maxHeartbeats 1000000
set_option linter.unusedVariables false

namespace Relativity

/-! Shallow embedding of the atmospheric ballistic trajectory engine of the
repository (files `ballistics_lib.py` and `motion_lib.py`).

Real-number model: Python floats are modelled as rationals.  Transcendental
helpers that have no rational closed form (`math.sqrt`, `x ** 0.687`,
`math.log10`, the ISA exponential density model, Sutherland viscosity) are
abstracted as explicit function parameters (oracles), so that every branch
decision and every arithmetic step of the source is represented exactly.
The numerical ODE solver `scipy.integrate.solve_ivp` (an external library)
is abstracted as a function parameter (`integ` for the trajectory
integrators, `sim` for the angle solver's per-angle simulation); all
validation, grid-scan, bracketing, bisection and result-extraction logic is
translated directly from the source. -/

/-- Python constant `EARTH_MASS` of `ballistics_lib.py` (kg). -/
def EARTH_MASS : ℚ := 5.972e24

/-- Python constant `EARTH_RADIUS` of `ballistics_lib.py` (m). -/
def EARTH_RADIUS : ℚ := 6.371e6

/-- Python constant `G` of `ballistics_lib.py` (gravitational constant). -/
def G : ℚ := 6.6743e-11

/-- Division that records a zero denominator instead of defaulting to 0.
Used to state that the source performs no division by zero. -/
def cdiv (a b : ℚ) : Option ℚ := if b = 0 then none else some (a / b)

/-- `gravity_at_altitude` of `ballistics_lib.py`:
`G * EARTH_MASS / (EARTH_RADIUS + altitude) ** 2`. -/
def gravity_at_altitude (altitude : ℚ) : ℚ :=
  G * EARTH_MASS / (EARTH_RADIUS + altitude) ^ 2

/-- `gravity_at_altitude` with its division checked for a zero denominator. -/
def gravity_at_altitudeChecked (altitude : ℚ) : Option ℚ :=
  cdiv (G * EARTH_MASS) ((EARTH_RADIUS + altitude) ^ 2)

/-- `get_temperature_at_altitude` of `ballistics_lib.py` (ISA model;
piecewise linear, hence exactly rational). -/
def get_temperature_at_altitude (altitude : ℚ) : ℚ :=
  let a := if altitude < 0 then 0 else altitude
  let T0 : ℚ := 288.15
  if a ≤ 11000 then
    let lapse_rate : ℚ := -0.0065
    T0 + lapse_rate * a
  else if a ≤ 20000 then 216.65
  else 216.65

/-- `calculate_reynolds_number` of `ballistics_lib.py`. -/
def calculate_reynolds_number
    (velocity characteristic_length air_density dynamic_viscosity : ℚ) : ℚ :=
  if velocity < 1e-10 then 0
  else air_density * velocity * characteristic_length / dynamic_viscosity

/-- `calculate_reynolds_number` with its division checked. -/
def calculate_reynolds_numberChecked
    (velocity characteristic_length air_density dynamic_viscosity : ℚ) : Option ℚ :=
  if velocity < 1e-10 then some 0
  else cdiv (air_density * velocity * characteristic_length) dynamic_viscosity

/-- `drag_coefficient_sphere` of `ballistics_lib.py`.  The `rpow687` oracle
models the Python expression `Re ** 0.687` of the intermediate regime. -/
def drag_coefficient_sphere (rpow687 : ℚ → ℚ) (Re : ℚ) : ℚ :=
  if Re < 1e-6 then 0
  else if Re < 1 then 24 / Re
  else if Re < 1000 then 24 / Re * (1 + 0.15 * rpow687 Re)
  else if Re < 2e5 then 0.47
  else if Re < 5e5 then 0.47 - (0.47 - 0.1) * (Re - 2e5) / (5e5 - 2e5)
  else 0.1

/-- `drag_coefficient_sphere` with every division checked. -/
def drag_coefficient_sphereChecked (rpow687 : ℚ → ℚ) (Re : ℚ) : Option ℚ :=
  if Re < 1e-6 then some 0
  else if Re < 1 then cdiv 24 Re
  else if Re < 1000 then (cdiv 24 Re).map (fun q => q * (1 + 0.15 * rpow687 Re))
  else if Re < 2e5 then some 0.47
  else if Re < 5e5 then
    (cdiv ((0.47 - 0.1) * (Re - 2e5)) (5e5 - 2e5)).map (fun q => 0.47 - q)
  else some 0.1

/-- The high-Reynolds reference table used by `drag_coefficient_shape` of
`ballistics_lib.py` (a Python dict lookup with default 1.0). -/
def shape_base_cd (shape : String) : ℚ :=
  if shape = "human_standing" then 1.2
  else if shape = "human_prone" then 0.7
  else if shape = "cylinder_side" then 1.0
  else if shape = "cylinder_end" then 0.8
  else if shape = "flat_plate" then 1.28
  else if shape = "streamlined" then 0.04
  else if shape = "cube" then 1.05
  else if shape = "disk" then 1.17
  else if shape = "cone_base" then 0.5
  else if shape = "parachute" then 1.3
  else 1.0

/-- `drag_coefficient_shape` of `ballistics_lib.py`.  The `log10q` oracle
models `math.log10` in the transition regime. -/
def drag_coefficient_shape (rpow687 log10q : ℚ → ℚ) (shape : String)
    (Re : ℚ) : ℚ :=
  if shape = "sphere" then drag_coefficient_sphere rpow687 Re
  else if Re < 1 then shape_base_cd shape * (1 + 20 / max Re 0.1)
  else if 1000 ≤ Re then shape_base_cd shape
  else
    let high_re_cd := shape_base_cd shape
    let low_re_cd := high_re_cd * (1 + 20 / 1)
    let factor := (log10q Re - 0) / (3 - 0)
    low_re_cd + factor * (high_re_cd - low_re_cd)

/-- `drag_coefficient_shape` with every division checked. -/
def drag_coefficient_shapeChecked (rpow687 log10q : ℚ → ℚ) (shape : String)
    (Re : ℚ) : Option ℚ :=
  if shape = "sphere" then drag_coefficient_sphereChecked rpow687 Re
  else if Re < 1 then
    (cdiv 20 (max Re 0.1)).map (fun q => shape_base_cd shape * (1 + q))
  else if 1000 ≤ Re then some (shape_base_cd shape)
  else
    (cdiv (log10q Re - 0) (3 - 0)).map (fun factor =>
      shape_base_cd shape * (1 + 20 / 1) +
        factor * (shape_base_cd shape - shape_base_cd shape * (1 + 20 / 1)))

/-- The nested `equations_of_motion` of `projectile_distance3`
(`ballistics_lib.py`).  The closure-captured quantities (shape, surface
area, mass, launch air density, constant gravity, characteristic length,
altitude-model flag) are passed explicitly; `sqrtq` models `math.sqrt`,
`rhoIsa` models `get_air_density_isa`, `muSuth` models
`get_dynamic_viscosity` (both use transcendental functions). -/
def equations_of_motion (sqrtq rpow687 log10q rhoIsa muSuth : ℚ → ℚ)
    (shape : String) (surface_area mass air_density gravity characteristic_length : ℚ)
    (altitude_model : Bool) (x y vx vy : ℚ) : ℚ × ℚ × ℚ × ℚ :=
  let v := sqrtq (vx ^ 2 + vy ^ 2)
  if v < 1e-10 then
    let h := max 0 y
    let g := if altitude_model then gravity_at_altitude h else gravity
    (0, 0, 0, -g)
  else
    let h := max 0 y
    let rho := if altitude_model then rhoIsa h else air_density
    let mu := if altitude_model then muSuth (get_temperature_at_altitude h) else 1.81e-5
    let g := if altitude_model then gravity_at_altitude h else gravity
    let Re := calculate_reynolds_number v characteristic_length rho mu
    let Cd := drag_coefficient_shape rpow687 log10q shape Re
    let k := 0.5 * Cd * surface_area / mass * rho
    (vx, vy, -(k * v * vx), -(k * v * vy) - g)

/-- `equations_of_motion` with every division in the drag computation
checked for a zero denominator. -/
def equations_of_motionChecked (sqrtq rpow687 log10q rhoIsa muSuth : ℚ → ℚ)
    (shape : String) (surface_area mass air_density gravity characteristic_length : ℚ)
    (altitude_model : Bool) (x y vx vy : ℚ) : Option (ℚ × ℚ × ℚ × ℚ) :=
  let v := sqrtq (vx ^ 2 + vy ^ 2)
  if v < 1e-10 then
    let h := max 0 y
    match (if altitude_model then gravity_at_altitudeChecked h else some gravity) with
    | none => none
    | some g => some (0, 0, 0, -g)
  else
    let h := max 0 y
    let rho := if altitude_model then rhoIsa h else air_density
    let mu := if altitude_model then muSuth (get_temperature_at_altitude h) else 1.81e-5
    match (if altitude_model then gravity_at_altitudeChecked h else some gravity) with
    | none => none
    | some g =>
      match calculate_reynolds_numberChecked v characteristic_length rho mu with
      | none => none
      | some Re =>
        match drag_coefficient_shapeChecked rpow687 log10q shape Re with
        | none => none
        | some Cd =>
          match cdiv (0.5 * Cd * surface_area) mass with
          | none => none
          | some q => some (vx, vy, -(q * rho * v * vx), -(q * rho * v * vy) - g)

/-- The input-validation prefix shared by `projectile_distance2` and
`projectile_distance3` (`ballistics_lib.py`), in source order. -/
def validate_launch (speed angle_deg mass surface_area : ℚ) : Option String :=
  if speed ≤ 0 then some "Speed must be positive"
  else if ¬(0 ≤ angle_deg ∧ angle_deg ≤ 90) then some "Angle must be between 0 and 90 degrees"
  else if mass ≤ 0 then some "Mass must be positive"
  else if surface_area ≤ 0 then some "Surface area must be positive"
  else none

/-- `projectile_distance2` of `ballistics_lib.py`: validate, then integrate.
The whole `solve_ivp`-based numerical integration is abstracted as the
parameter `integ`, applied to the unmodified validated inputs; a raised
`ValueError` is modelled as `Except.error` with the source's message. -/
def projectile_distance2 (integ : ℚ → ℚ → ℚ → ℚ → ℚ)
    (speed angle_deg mass surface_area : ℚ) : Except String ℚ :=
  match validate_launch speed angle_deg mass surface_area with
  | some e => Except.error e
  | none => Except.ok (integ speed angle_deg mass surface_area)

/-- The `shape_coefficients` dict of `projectile_distance3`. -/
def shape_coefficients (shape : String) : Option ℚ :=
  if shape = "sphere" then some 0.47
  else if shape = "human_standing" then some 1.2
  else if shape = "human_prone" then some 0.7
  else if shape = "cylinder_side" then some 1.0
  else if shape = "cylinder_end" then some 0.8
  else if shape = "flat_plate" then some 1.28
  else if shape = "streamlined" then some 0.04
  else if shape = "cube" then some 1.05
  else if shape = "disk" then some 1.17
  else if shape = "cone_base" then some 0.5
  else if shape = "parachute" then some 1.3
  else none

/-- `projectile_distance3` of `ballistics_lib.py`: auto-select the drag
coefficient from the shape, validate, then integrate (integration again
abstracted as `integ`, here also receiving the resolved drag coefficient). -/
def projectile_distance3 (integ : ℚ → ℚ → ℚ → ℚ → ℚ → ℚ)
    (speed angle_deg mass surface_area drag_coeff : ℚ) (shape : String) :
    Except String ℚ :=
  let dc := (shape_coefficients shape).getD drag_coeff
  match validate_launch speed angle_deg mass surface_area with
  | some e => Except.error e
  | none => Except.ok (integ speed angle_deg mass surface_area dc)

/-- The data of a `solve_ivp` solution object that the result-extraction
code of `projectile_distance3` consumes: the terminal-event times
(`sol.t_events[0]`), the dense interpolant (`sol.sol`, first component x),
the solution times (`sol.t`) and the computed x positions (`sol.y[0]`). -/
structure OdeSol where
  t_events : List ℚ
  interp : ℚ → ℚ × ℚ × ℚ × ℚ
  ts : List ℚ
  xs : List ℚ

/-- The result extraction of `projectile_distance3` (with
`return_trajectory=False`): if the ground-impact event fired, evaluate the
dense solution at the first event time and take its x component; otherwise
fall back to the last computed x position.  The returned value is a bare
number: the function's type records that no annotation accompanies it. -/
def extract_distance (sol : OdeSol) : ℚ :=
  match sol.t_events with
  | t_final :: _ => (sol.interp t_final).1
  | [] => (sol.xs.getLast?).getD 0

/-! Embedding of `ballistic_trajectory_with_drag_opt_angle` of
`motion_lib.py`.  The nested `simulate_trajectory` closure (a bounded
`solve_ivp` integration returning `(max_altitude, total_time,
impact_velocity, final_x)`) is abstracted as a function parameter `sim`;
every piece of search logic — the `np.linspace(0, 75, 30)` grid, the
unreachable-target test against the maximum sampled range (`np.argmax`
picks the first maximum), the adjacent-pair bracket scan, the 16-iteration
bisection with its 1-metre early exit and its comparison against the sign
of `x_vals[0] - distance`, the closest-endpoint tie-break, and the
`np.argmin`-based fallback when no pair brackets the target — is
translated directly. -/

/-- A simulated trajectory summary `(max_altitude, total_time,
impact_velocity, final_x)` as returned by `simulate_trajectory`. -/
abbrev Traj : Type := ℚ × ℚ × ℚ × ℚ

/-- The `final_x` component of a `simulate_trajectory` result. -/
def finalX (r : Traj) : ℚ := r.2.2.2

/-- The final horizontal position that the abstracted integrator `sim`
reports for launch angle `a`. -/
def finalXAt (sim : ℚ → Traj) (a : ℚ) : ℚ := finalX (sim a)

/-- Rebuild a solver result from a simulation result and a launch angle:
`(max_altitude, total_time, impact_velocity, angle)`. -/
def withAngle (r : Traj) (a : ℚ) : ℚ × ℚ × ℚ × ℚ := (r.1, r.2.1, r.2.2.1, a)

/-- The coarse angle grid `np.linspace(0, 75, 30)`: thirty samples
`75 * i / 29` for `i = 0, …, 29`. -/
def angle_samples : List ℚ := (List.range 30).map (fun (i : ℕ) => 75 * (i : ℚ) / 29)

/-- Python `max` over a nonempty list (`max_x = max(x_vals)`). -/
def maxListQ : List ℚ → ℚ
  | [] => 0
  | x :: rest => rest.foldl max x

/-- Worker for `argmaxIdx`: `best` is the index of the running maximum
`bv`, `i` the index of the head of the remaining list.  Replacement only on
a strictly larger value, so the first maximum wins, as with `np.argmax`. -/
def argmaxGo : ℕ → ℚ → ℕ → List ℚ → ℕ
  | best, _, _, [] => best
  | best, bv, i, y :: rest =>
    if bv < y then argmaxGo i y (i + 1) rest else argmaxGo best bv (i + 1) rest

/-- `np.argmax`: index of the first maximal element. -/
def argmaxIdx : List ℚ → ℕ
  | [] => 0
  | x :: rest => argmaxGo 0 x 1 rest

/-- Worker for `argminAbsIdx`, analogous to `argmaxGo`. -/
def argminAbsGo (d : ℚ) : ℕ → ℚ → ℕ → List ℚ → ℕ
  | best, _, _, [] => best
  | best, bv, i, y :: rest =>
    if |y - d| < bv then argminAbsGo d i |y - d| (i + 1) rest
    else argminAbsGo d best bv (i + 1) rest

/-- `np.argmin(np.abs(np.array(x_vals) - distance))`: index of the first
element minimising the absolute deviation from `d`. -/
def argminAbsIdx (d : ℚ) : List ℚ → ℕ
  | [] => 0
  | x :: rest => argminAbsGo d 0 |x - d| 1 rest

/-- The bracket scan `for i in range(1, len(angle_samples)): if
(x_vals[i-1] - distance) * (x_vals[i] - distance) <= 0: …` of
`ballistic_trajectory_with_drag_opt_angle`, walking adjacent
`(angle, final_x)` pairs; returns the bracketing pair of grid angles
`(angle_low, angle_high)`, or `none` when the loop falls through to its
`else` clause. -/
def bracketScan (d : ℚ) : (ℚ × ℚ) → List (ℚ × ℚ) → Option (ℚ × ℚ)
  | _, [] => none
  | prev, q :: rest =>
    if (prev.2 - d) * (q.2 - d) ≤ 0 then some (prev.1, q.1)
    else bracketScan d q rest

/-- One narrowing step of the bisection loop: integrate to the bracket
midpoint; `none` when the 1-metre early-exit fires (the loop returns),
otherwise the narrowed bracket.  Note the source compares the midpoint
residual against the sign of `x_vals[0] - distance` (passed as `x0`), not
against the local bracket's sign. -/
def narrowStep (sim : ℚ → Traj) (d x0 lo hi : ℚ) : Option (ℚ × ℚ) :=
  if |finalX (sim ((lo + hi) / 2)) - d| < 1 then none
  else if (finalX (sim ((lo + hi) / 2)) - d) * (x0 - d) < 0 then some (lo, (lo + hi) / 2)
  else some ((lo + hi) / 2, hi)

/-- Iterated narrowing: the bracket after `k` narrowing steps of the
bisection loop, `none` once the early exit has fired. -/
def narrowIter (sim : ℚ → Traj) (d x0 : ℚ) : ℕ → ℚ × ℚ → Option (ℚ × ℚ)
  | 0, p => some p
  | n + 1, (lo, hi) =>
    match narrowStep sim d x0 lo hi with
    | none => none
    | some q => narrowIter sim d x0 n q

/-- The bisection phase (`for _ in range(16)` plus the closest-endpoint
tie-break) of `ballistic_trajectory_with_drag_opt_angle`, with `n`
remaining iterations. -/
def bisectLoop (sim : ℚ → Traj) (d x0 : ℚ) : ℕ → ℚ → ℚ → ℚ × ℚ × ℚ × ℚ
  | 0, lo, hi =>
    let rlo := sim lo
    let rhi := sim hi
    if |finalX rlo - d| < |finalX rhi - d| then withAngle rlo lo
    else withAngle rhi hi
  | n + 1, lo, hi =>
    let mid := (lo + hi) / 2
    let r := sim mid
    if |finalX r - d| < 1 then withAngle r mid
    else if (finalX r - d) * (x0 - d) < 0 then bisectLoop sim d x0 n lo mid
    else bisectLoop sim d x0 n mid hi

/-- The angle-search body of `ballistic_trajectory_with_drag_opt_angle`
(the `launch_angle_deg is None` branch), over an arbitrary grid `gs`
(instantiated with `angle_samples` in the entry point). -/
def optAngleCore (gs : List ℚ) (sim : ℚ → Traj) (distance : ℚ) : ℚ × ℚ × ℚ × ℚ :=
  let results := gs.map sim
  let x_vals := results.map finalX
  let max_x := maxListQ x_vals
  if max_x < distance then
    withAngle (results.getD (argmaxIdx x_vals) (0, 0, 0, 0)) (-1)
  else
    let pairs := gs.zip x_vals
    let x0 := x_vals.headD 0
    match bracketScan distance (pairs.headD (0, 0)) pairs.tail with
    | some (lo, hi) => bisectLoop sim distance x0 16 lo hi
    | none =>
      let idx := argminAbsIdx distance x_vals
      withAngle (results.getD idx (0, 0, 0, 0)) (gs.getD idx 0)

/-- `ballistic_trajectory_with_drag_opt_angle` of `motion_lib.py`, with the
per-angle `solve_ivp` simulation abstracted as `sim`.  When a launch angle
is supplied, no search happens and the supplied angle is returned verbatim
as the fourth component; when it is `none`, the grid scan / bracket /
bisection search runs. -/
def ballistic_trajectory_with_drag_opt_angle (sim : ℚ → Traj) (distance : ℚ)
    (launch_angle_deg : Option ℚ) : ℚ × ℚ × ℚ × ℚ :=
  match launch_angle_deg with
  | some a => withAngle (sim a) a
  | none => optAngleCore angle_samples sim distance

/-- A concrete per-angle simulation, used as an input exhibiting the
degenerate behaviour of the bisection narrowing: its final position at
angle 0 lands exactly on the target 0. -/
def simDegenerate : ℚ → Traj :=
  fun a => (0, 0, 0, if a = 75 / 58 then 3 else if a = 75 / 29 then 5 else 0)

/-! Theorems.  Sign-algebra helpers first, then the per-claim results. -/

/-- Two factors sharing the sign of a common factor share a sign. -/
theorem mul_sign_trans {a b s : ℚ} (h1 : 0 < a * s) (h2 : 0 < b * s) : 0 < a * b := by
  rcases mul_pos_iff.mp h1 with ⟨ha, hs⟩ | ⟨ha, hs⟩ <;>
    rcases mul_pos_iff.mp h2 with ⟨hb, hs2⟩ | ⟨hb, hs2⟩
  · exact mul_pos ha hb
  · linarith
  · linarith
  · exact mul_pos_of_neg_of_neg ha hb

/-- A straddle against `a` transfers to any `b` sharing `a`'s sign. -/
theorem straddle_transfer {a b s t : ℚ} (h1 : 0 < a * s) (h2 : 0 < b * s)
    (h3 : a * t ≤ 0) : b * t ≤ 0 := by
  rcases mul_pos_iff.mp (mul_sign_trans h1 h2) with ⟨ha, hb⟩ | ⟨ha, hb⟩
  · have ht : t ≤ 0 := by nlinarith
    nlinarith
  · have ht : 0 ≤ t := by nlinarith
    nlinarith

/-- A factor of the opposite sign of `s` multiplies nonpositively with a
factor sharing the sign of `s`. -/
theorem opp_sign_transfer {a s m : ℚ} (h1 : 0 < a * s) (h2 : m * s < 0) :
    a * m ≤ 0 := by
  rcases mul_pos_iff.mp h1 with ⟨ha, hs⟩ | ⟨ha, hs⟩
  · have hm : m < 0 := by nlinarith
    nlinarith
  · have hm : 0 < m := by nlinarith
    nlinarith

/-- The shared validation prefix succeeds exactly on the valid-parameter
region claimed by the spec. -/
theorem validate_launch_none_iff (speed angle_deg mass surface_area : ℚ) :
    validate_launch speed angle_deg mass surface_area = none ↔
      ¬(speed ≤ 0 ∨ angle_deg < 0 ∨ 90 < angle_deg ∨ mass ≤ 0 ∨ surface_area ≤ 0) := by
  unfold validate_launch
  by_cases h1 : speed ≤ 0
  · rw [if_pos h1]
    constructor
    · intro h
      exact Option.noConfusion h
    · intro hn
      exact absurd (Or.inl h1) hn
  · rw [if_neg h1]
    by_cases h2 : 0 ≤ angle_deg ∧ angle_deg ≤ 90
    · rw [if_neg (not_not.mpr h2)]
      by_cases h3 : mass ≤ 0
      · rw [if_pos h3]
        constructor
        · intro h
          exact Option.noConfusion h
        · intro hn
          exact absurd (Or.inr (Or.inr (Or.inr (Or.inl h3)))) hn
      · rw [if_neg h3]
        by_cases h4 : surface_area ≤ 0
        · rw [if_pos h4]
          constructor
          · intro h
            exact Option.noConfusion h
          · intro hn
            exact absurd (Or.inr (Or.inr (Or.inr (Or.inr h4)))) hn
        · rw [if_neg h4]
          constructor
          · intro _ hdisj
            rcases hdisj with h5 | h5 | h5 | h5 | h5
            · exact h1 h5
            · linarith [h2.1]
            · linarith [h2.2]
            · exact h3 h5
            · exact h4 h5
          · intro _
            rfl
    · rw [if_pos h2]
      constructor
      · intro h
        exact Option.noConfusion h
      · intro hn
        rcases not_and_or.mp h2 with h5 | h5
        · exact absurd (Or.inr (Or.inl (lt_of_not_le h5))) hn
        · exact absurd (Or.inr (Or.inr (Or.inl (lt_of_not_le h5)))) hn

/-- Claim C1: each of `projectile_distance2` and `projectile_distance3`
raises `ValueError` exactly when speed ≤ 0, the angle is outside [0, 90],
mass ≤ 0 or surface area ≤ 0; the error does not depend on the integrator
(it is raised before any integration work), and on valid inputs the
integrator receives the parameters unmodified (nothing is clamped). -/
theorem c1_parameter_validation :
    ∀ (integ2 integ2b : ℚ → ℚ → ℚ → ℚ → ℚ) (integ3 integ3b : ℚ → ℚ → ℚ → ℚ → ℚ → ℚ)
      (speed angle_deg mass surface_area drag_coeff : ℚ) (shape : String),
      ((∃ e, projectile_distance2 integ2 speed angle_deg mass surface_area
          = Except.error e) ↔
        (speed ≤ 0 ∨ angle_deg < 0 ∨ 90 < angle_deg ∨ mass ≤ 0 ∨ surface_area ≤ 0)) ∧
      ((∃ e, projectile_distance3 integ3 speed angle_deg mass surface_area drag_coeff shape
          = Except.error e) ↔
        (speed ≤ 0 ∨ angle_deg < 0 ∨ 90 < angle_deg ∨ mass ≤ 0 ∨ surface_area ≤ 0)) ∧
      (∀ e, projectile_distance2 integ2 speed angle_deg mass surface_area = Except.error e →
        projectile_distance2 integ2b speed angle_deg mass surface_area = Except.error e) ∧
      (∀ e, projectile_distance3 integ3 speed angle_deg mass surface_area drag_coeff shape
          = Except.error e →
        projectile_distance3 integ3b speed angle_deg mass surface_area drag_coeff shape
          = Except.error e) ∧
      (¬(speed ≤ 0 ∨ angle_deg < 0 ∨ 90 < angle_deg ∨ mass ≤ 0 ∨ surface_area ≤ 0) →
        projectile_distance2 integ2 speed angle_deg mass surface_area
          = Except.ok (integ2 speed angle_deg mass surface_area) ∧
        projectile_distance3 integ3 speed angle_deg mass surface_area drag_coeff shape
          = Except.ok (integ3 speed angle_deg mass surface_area
              ((shape_coefficients shape).getD drag_coeff))) := by
  intro integ2 integ2b integ3 integ3b speed angle_deg mass surface_area drag_coeff shape
  rcases hv : validate_launch speed angle_deg mass surface_area with _ | e
  · have hval := (validate_launch_none_iff speed angle_deg mass surface_area).mp hv
    have h2eq : projectile_distance2 integ2 speed angle_deg mass surface_area
        = Except.ok (integ2 speed angle_deg mass surface_area) := by
      simp [projectile_distance2, hv]
    have h3eq : projectile_distance3 integ3 speed angle_deg mass surface_area drag_coeff shape
        = Except.ok (integ3 speed angle_deg mass surface_area
            ((shape_coefficients shape).getD drag_coeff)) := by
      simp [projectile_distance3, hv]
    refine ⟨⟨?_, fun hd => absurd hd hval⟩, ⟨?_, fun hd => absurd hd hval⟩, ?_, ?_,
      fun _ => ⟨h2eq, h3eq⟩⟩
    · rintro ⟨e, he⟩
      rw [h2eq] at he
      exact Except.noConfusion he
    · rintro ⟨e, he⟩
      rw [h3eq] at he
      exact Except.noConfusion he
    · intro e he
      rw [h2eq] at he
      exact Except.noConfusion he
    · intro e he
      rw [h3eq] at he
      exact Except.noConfusion he
  · have hdisj : speed ≤ 0 ∨ angle_deg < 0 ∨ 90 < angle_deg ∨ mass ≤ 0 ∨ surface_area ≤ 0 := by
      by_contra hn
      rw [(validate_launch_none_iff speed angle_deg mass surface_area).mpr hn] at hv
      exact Option.noConfusion hv
    have h2eq : ∀ i : ℚ → ℚ → ℚ → ℚ → ℚ,
        projectile_distance2 i speed angle_deg mass surface_area = Except.error e :=
      fun i => by simp [projectile_distance2, hv]
    have h3eq : ∀ i : ℚ → ℚ → ℚ → ℚ → ℚ → ℚ,
        projectile_distance3 i speed angle_deg mass surface_area drag_coeff shape
          = Except.error e :=
      fun i => by simp [projectile_distance3, hv]
    refine ⟨⟨fun _ => hdisj, fun _ => ⟨e, h2eq integ2⟩⟩,
      ⟨fun _ => hdisj, fun _ => ⟨e, h3eq integ3⟩⟩, ?_, ?_, fun hn => absurd hdisj hn⟩
    · intro e2 he2
      exact (h2eq integ2b).trans ((h2eq integ2).symm.trans he2)
    · intro e2 he2
      exact (h3eq integ3b).trans ((h3eq integ3).symm.trans he2)

/-- Witness for C1 at a concrete valid input: no error, integrator applied. -/
theorem c1_parameter_validation_witness :
    projectile_distance2 (fun _ _ _ _ => 0) 1 45 2 3 = Except.ok 0 ∧
    projectile_distance3 (fun _ _ _ _ _ => 0) 1 45 2 3 0.47 "sphere" = Except.ok 0 := by
  have h := (c1_parameter_validation (fun _ _ _ _ => 0) (fun _ _ _ _ => 0)
      (fun _ _ _ _ _ => 0) (fun _ _ _ _ _ => 0) 1 45 2 3 0.47 "sphere").2.2.2.2
      (by norm_num)
  exact ⟨h.1, h.2⟩

/-- Claim C5: the sphere drag model reproduces the drag crisis: the value
at Re = 1e5 exceeds 0.40, the value at Re = 6e5 is below 0.20, and the
value at Re = 3e5 lies strictly between the two. -/
theorem c5_drag_crisis_shape :
    ∀ rpow687 : ℚ → ℚ,
      0.40 < drag_coefficient_sphere rpow687 1e5 ∧
      drag_coefficient_sphere rpow687 6e5 < 0.20 ∧
      drag_coefficient_sphere rpow687 6e5 < drag_coefficient_sphere rpow687 3e5 ∧
      drag_coefficient_sphere rpow687 3e5 < drag_coefficient_sphere rpow687 1e5 := by
  intro rpow687
  norm_num [drag_coefficient_sphere]

/-- Counterexample for C6: at Re = 1e-7 (so 0 < Re < 1) the code returns
the no-flow value 0, not the Stokes value 24/Re. -/
theorem c6_stokes_cutoff_cex :
    0 < (1e-7 : ℚ) ∧ (1e-7 : ℚ) < 1 ∧
    drag_coefficient_sphere (fun q => q) 1e-7 = 0 ∧
    drag_coefficient_sphere (fun q => q) 1e-7 ≠ 24 / 1e-7 := by
  norm_num [drag_coefficient_sphere]

/-- Claim C6 (amended): above the no-flow cutoff Re = 1e-6 the Stokes
formula 24/Re holds for Re < 1, and the intermediate formula
24/Re·(1 + 0.15·Re^0.687) holds for 1 ≤ Re < 1000; below the cutoff the
code returns 0 instead. -/
theorem c6_low_reynolds_regimes :
    ∀ (rpow687 : ℚ → ℚ) (Re : ℚ),
      (1e-6 ≤ Re → Re < 1 → drag_coefficient_sphere rpow687 Re = 24 / Re) ∧
      (1 ≤ Re → Re < 1000 →
        drag_coefficient_sphere rpow687 Re = 24 / Re * (1 + 0.15 * rpow687 Re)) := by
  intro rpow687 Re
  constructor
  · intro h1 h2
    unfold drag_coefficient_sphere
    rw [if_neg (by linarith), if_pos h2]
  · intro h1 h2
    unfold drag_coefficient_sphere
    rw [if_neg (by linarith), if_neg (by linarith), if_pos h2]

/-- Witness for C6 (amended) at Re = 1/2 and Re = 2. -/
theorem c6_low_reynolds_regimes_witness :
    drag_coefficient_sphere (fun q => q) 0.5 = 48 ∧
    drag_coefficient_sphere (fun q => q) 2 = 15.6 := by
  constructor
  · exact ((c6_low_reynolds_regimes (fun q => q) 0.5).1 (by norm_num) (by norm_num)).trans
      (by norm_num)
  · exact ((c6_low_reynolds_regimes (fun q => q) 2).2 (by norm_num) (by norm_num)).trans
      (by norm_num)

/-- Claim C8 (amended): when no terminal event fired, the result extraction
of `projectile_distance3` falls back to the last computed horizontal
position and returns it (totally, without raising); the returned value is a
bare number carrying no annotation of the horizon-exhausted outcome. -/
theorem c8_fallback_last_state :
    ∀ sol : OdeSol, sol.t_events = [] →
      extract_distance sol = (sol.xs.getLast?).getD 0 := by
  intro sol h
  simp [extract_distance, h]

/-- Witness for C8 (amended) on a concrete event-free solution. -/
theorem c8_fallback_last_state_witness :
    extract_distance ⟨[], fun _ => (0, 0, 0, 0), [0, 1], [0, 250]⟩ = 250 := by
  rw [c8_fallback_last_state ⟨[], fun _ => (0, 0, 0, 0), [0, 1], [0, 250]⟩ rfl]
  rfl

/-- Counterexample for C8 as stated: a run whose ground-impact event fired
and a run whose events never fired produce the very same returned value, so
the caller cannot distinguish a clean landing from a horizon-exhausted
integration — the result is not annotated. -/
theorem c8_no_annotation_cex :
    extract_distance ⟨[2], fun _ => (100, 0, 0, 0), [0, 1, 2], [0, 50, 99]⟩ = 100 ∧
    extract_distance ⟨[], fun _ => (0, 0, 0, 0), [0, 1, 2], [0, 50, 100]⟩ = 100 ∧
    ([2] : List ℚ) ≠ ([] : List ℚ) := by
  refine ⟨rfl, rfl, by simp⟩

/-- Claim C10: with an explicitly supplied launch angle the solver performs
no search: it returns the simulation at that angle with the supplied angle
itself as fourth component, for every angle whatsoever — the angle is
neither validated nor clamped. -/
theorem c10_explicit_angle_passthrough :
    ∀ (sim : ℚ → Traj) (distance a : ℚ),
      ballistic_trajectory_with_drag_opt_angle sim distance (some a)
        = ((sim a).1, (sim a).2.1, (sim a).2.2.1, a) ∧
      (ballistic_trajectory_with_drag_opt_angle sim distance (some a)).2.2.2 = a := by
  intro sim distance a
  exact ⟨rfl, rfl⟩

/-- The gravity division is safe at nonnegative altitude. -/
theorem gravity_at_altitudeChecked_eq (h : ℚ) (hh : 0 ≤ h) :
    gravity_at_altitudeChecked h = some (gravity_at_altitude h) := by
  have hR : (0 : ℚ) < EARTH_RADIUS + h := by
    have : (0 : ℚ) < EARTH_RADIUS := by norm_num [EARTH_RADIUS]
    linarith
  have hpos : (0 : ℚ) < (EARTH_RADIUS + h) ^ 2 := pow_pos hR 2
  simp [gravity_at_altitudeChecked, gravity_at_altitude, cdiv, hpos.ne']

/-- The Reynolds-number division is safe for a nonzero viscosity. -/
theorem calculate_reynolds_numberChecked_eq (v L rho mu : ℚ) (hmu : mu ≠ 0) :
    calculate_reynolds_numberChecked v L rho mu
      = some (calculate_reynolds_number v L rho mu) := by
  unfold calculate_reynolds_numberChecked calculate_reynolds_number
  split_ifs with h
  · rfl
  · simp [cdiv, hmu]

/-- Every division of the sphere drag model is safe: the branches dividing
by Re are reached only above the positive no-flow cutoff. -/
theorem drag_coefficient_sphereChecked_eq (rpow687 : ℚ → ℚ) (Re : ℚ) :
    drag_coefficient_sphereChecked rpow687 Re
      = some (drag_coefficient_sphere rpow687 Re) := by
  unfold drag_coefficient_sphereChecked drag_coefficient_sphere
  split_ifs with h1 h2 h3 h4 h5
  · rfl
  · have hne : Re ≠ 0 := by
      have hle := not_lt.mp h1
      intro h0
      rw [h0] at hle
      norm_num at hle
    simp [cdiv, hne]
  · have hne : Re ≠ 0 := by
      have hle := not_lt.mp h1
      intro h0
      rw [h0] at hle
      norm_num at hle
    simp [cdiv, hne]
  · rfl
  · have hd : (5e5 : ℚ) - 2e5 ≠ 0 := by norm_num
    simp [cdiv, hd]
  · rfl

/-- Every division of the shape drag model is safe. -/
theorem drag_coefficient_shapeChecked_eq (rpow687 log10q : ℚ → ℚ) (shape : String)
    (Re : ℚ) :
    drag_coefficient_shapeChecked rpow687 log10q shape Re
      = some (drag_coefficient_shape rpow687 log10q shape Re) := by
  unfold drag_coefficient_shapeChecked drag_coefficient_shape
  split_ifs with h1 h2 h3
  · exact drag_coefficient_sphereChecked_eq rpow687 Re
  · have hmax : max Re (0.1 : ℚ) ≠ 0 := by
      have hle := le_max_right Re (0.1 : ℚ)
      intro h0
      rw [h0] at hle
      norm_num at hle
    simp [cdiv, hmax]
  · rfl
  · have hd : (3 : ℚ) - 0 ≠ 0 := by norm_num
    simp [cdiv, hd]

/-- The full right-hand side performs no division by zero: with a positive
mass and a nonzero viscosity oracle, the checked evaluation succeeds and
agrees with the unchecked one. -/
theorem equations_of_motionChecked_eq
    (sqrtq rpow687 log10q rhoIsa muSuth : ℚ → ℚ) (shape : String)
    (surface_area mass air_density gravity characteristic_length x y vx vy : ℚ)
    (altitude_model : Bool) (hm : mass ≠ 0) (hmu : ∀ T, muSuth T ≠ 0) :
    equations_of_motionChecked sqrtq rpow687 log10q rhoIsa muSuth shape surface_area
        mass air_density gravity characteristic_length altitude_model x y vx vy
      = some (equations_of_motion sqrtq rpow687 log10q rhoIsa muSuth shape surface_area
          mass air_density gravity characteristic_length altitude_model x y vx vy) := by
  cases altitude_model with
  | false =>
    by_cases hv : sqrtq (vx ^ 2 + vy ^ 2) < 1e-10
    · simp [equations_of_motionChecked, equations_of_motion, hv]
    · simp [equations_of_motionChecked, equations_of_motion, hv, cdiv, hm,
        calculate_reynolds_numberChecked_eq (sqrtq (vx ^ 2 + vy ^ 2))
          characteristic_length air_density 1.81e-5 (by norm_num),
        drag_coefficient_shapeChecked_eq]
  | true =>
    by_cases hv : sqrtq (vx ^ 2 + vy ^ 2) < 1e-10
    · simp [equations_of_motionChecked, equations_of_motion, hv,
        gravity_at_altitudeChecked_eq (max 0 y) (le_max_left 0 y)]
    · simp [equations_of_motionChecked, equations_of_motion, hv, cdiv, hm,
        gravity_at_altitudeChecked_eq (max 0 y) (le_max_left 0 y),
        calculate_reynolds_numberChecked_eq (sqrtq (vx ^ 2 + vy ^ 2))
          characteristic_length (rhoIsa (max 0 y))
          (muSuth (get_temperature_at_altitude (max 0 y))) (hmu _),
        drag_coefficient_shapeChecked_eq]

/-- Claim C7: whenever the speed oracle reports a value below the epsilon
1e-10, the right-hand side of `projectile_distance3`'s equations of motion
is exactly `(0, 0, 0, −g)` with `g` the altitude-dependent gravity when the
altitude model is enabled and the constant gravity otherwise; and (with the
validated positive mass and a positive Sutherland viscosity) no division by
zero occurs anywhere in the drag computation. -/
theorem c7_eom_guard_no_div :
    ∀ (sqrtq rpow687 log10q rhoIsa muSuth : ℚ → ℚ) (shape : String)
      (surface_area mass air_density gravity characteristic_length x y vx vy : ℚ)
      (altitude_model : Bool),
      0 < mass → (∀ T, 0 < muSuth T) →
      (sqrtq (vx ^ 2 + vy ^ 2) < 1e-10 →
        equations_of_motion sqrtq rpow687 log10q rhoIsa muSuth shape surface_area mass
            air_density gravity characteristic_length altitude_model x y vx vy
          = (0, 0, 0, -(if altitude_model then gravity_at_altitude (max 0 y) else gravity))) ∧
      equations_of_motionChecked sqrtq rpow687 log10q rhoIsa muSuth shape surface_area
          mass air_density gravity characteristic_length altitude_model x y vx vy
        = some (equations_of_motion sqrtq rpow687 log10q rhoIsa muSuth shape surface_area
            mass air_density gravity characteristic_length altitude_model x y vx vy) := by
  intro sqrtq rpow687 log10q rhoIsa muSuth shape surface_area mass air_density gravity
    characteristic_length x y vx vy altitude_model hmass hmu
  constructor
  · intro hv
    unfold equations_of_motion
    rw [if_pos hv]
  · exact equations_of_motionChecked_eq sqrtq rpow687 log10q rhoIsa muSuth shape
      surface_area mass air_density gravity characteristic_length x y vx vy
      altitude_model hmass.ne' (fun T => (hmu T).ne')

/-- Witness for C7 at a concrete input whose speed oracle reports 0. -/
theorem c7_eom_guard_no_div_witness :
    equations_of_motion (fun _ => 0) (fun _ => 0) (fun _ => 0) (fun _ => 0) (fun _ => 1)
        "sphere" 1 1 1.225 9.81 1 false 0 0 0 0 = (0, 0, 0, -9.81) := by
  have h := c7_eom_guard_no_div (fun _ => 0) (fun _ => 0) (fun _ => 0) (fun _ => 0)
      (fun _ => 1) "sphere" 1 1 1.225 9.81 1 0 0 0 0 false (by norm_num)
      (fun T => by norm_num)
  exact (h.1 (by norm_num)).trans (by norm_num)

/-- The thirty grid angles `75 * i / 29`, written out. -/
theorem angle_samples_eval :
    angle_samples = [0, 75/29, 150/29, 225/29, 300/29, 375/29, 450/29, 525/29, 600/29,
      675/29, 750/29, 825/29, 900/29, 975/29, 1050/29, 1125/29, 1200/29, 1275/29,
      1350/29, 1425/29, 1500/29, 1575/29, 1650/29, 1725/29, 1800/29, 1875/29, 1950/29,
      2025/29, 2100/29, 2175/29] := by
  norm_num [angle_samples, List.range_succ]

/-- Every grid angle lies within [0, 75]. -/
theorem angle_samples_bounds : ∀ a ∈ angle_samples, 0 ≤ a ∧ a ≤ 75 := by
  intro a ha
  unfold angle_samples at ha
  obtain ⟨i, hi, rfl⟩ := List.mem_map.mp ha
  rw [List.mem_range] at hi
  have hic : (i : ℚ) ≤ 29 := by
    exact_mod_cast Nat.le_of_lt_succ hi
  have hic0 : (0 : ℚ) ≤ (i : ℚ) := by positivity
  constructor
  · positivity
  · rw [div_le_iff₀ (by norm_num : (0 : ℚ) < 29)]
    linarith

/-- Folding `max` over values all below `d` stays below `d`. -/
theorem foldl_max_lt (d : ℚ) :
    ∀ (l : List ℚ) (x : ℚ), x < d → (∀ y ∈ l, y < d) → l.foldl max x < d := by
  intro l
  induction l with
  | nil =>
    intro x hx _
    simpa using hx
  | cons y t ih =>
    intro x hx hall
    simp only [List.foldl_cons]
    exact ih (max x y) (max_lt hx (hall y (List.mem_cons_self y t)))
      (fun z hz => hall z (List.mem_cons_of_mem y hz))

/-- The Python `max` of a nonempty list of values below `d` is below `d`. -/
theorem maxListQ_lt (d : ℚ) (l : List ℚ) (hne : l ≠ []) (hall : ∀ y ∈ l, y < d) :
    maxListQ l < d := by
  cases l with
  | nil => exact absurd rfl hne
  | cons x t =>
    exact foldl_max_lt d t x (hall x (List.mem_cons_self x t))
      (fun z hz => hall z (List.mem_cons_of_mem x hz))

/-- Dropping to a cons determines the element and the further drop. -/
theorem drop_cons_getD :
    ∀ (xs : List ℚ) (i : ℕ) (y : ℚ) (t : List ℚ),
      xs.drop i = y :: t → xs.getD i 0 = y ∧ xs.drop (i + 1) = t := by
  intro xs
  induction xs with
  | nil =>
    intro i y t h
    rw [List.drop_nil] at h
    exact List.noConfusion h
  | cons a as ih =>
    intro i y t h
    cases i with
    | zero =>
      rw [List.drop_zero] at h
      injection h with h1 h2
      subst h1
      subst h2
      exact ⟨rfl, rfl⟩
    | succ n =>
      rw [List.drop_succ_cons] at h
      obtain ⟨h1, h2⟩ := ih n y t h
      exact ⟨by simpa [List.getD_cons_succ] using h1, by simpa [List.drop_succ_cons] using h2⟩

/-- The `argmaxGo` worker lands on an index holding the running maximum. -/
theorem argmaxGo_getD :
    ∀ (rest : List ℚ) (xs : List ℚ) (i best : ℕ) (bv : ℚ),
      xs.drop i = rest → xs.getD best 0 = bv →
      xs.getD (argmaxGo best bv i rest) 0 = rest.foldl max bv := by
  intro rest
  induction rest with
  | nil =>
    intro xs i best bv hdrop hbest
    simpa [argmaxGo] using hbest
  | cons y t ih =>
    intro xs i best bv hdrop hbest
    obtain ⟨hy, ht⟩ := drop_cons_getD xs i y t hdrop
    by_cases hc : bv < y
    · simp only [argmaxGo, if_pos hc, List.foldl_cons, max_eq_right hc.le]
      exact ih xs (i + 1) i y ht hy
    · simp only [argmaxGo, if_neg hc, List.foldl_cons, max_eq_left (not_lt.mp hc)]
      exact ih xs (i + 1) best bv ht hbest

/-- `np.argmax` returns an index whose entry is the list maximum. -/
theorem argmaxIdx_getD (xs : List ℚ) (hne : xs ≠ []) :
    xs.getD (argmaxIdx xs) 0 = maxListQ xs := by
  cases xs with
  | nil => exact absurd rfl hne
  | cons x t =>
    exact argmaxGo_getD t (x :: t) 1 0 x (by simp) (by simp)

/-- Indexing commutes with mapping `finalX`. -/
theorem getD_map_finalX :
    ∀ (l : List Traj) (i : ℕ), (l.map finalX).getD i 0 = finalX (l.getD i (0, 0, 0, 0)) := by
  intro l
  induction l with
  | nil =>
    intro i
    simp [List.getD_nil, finalX]
  | cons a t ih =>
    intro i
    cases i with
    | zero => rfl
    | succ n => simpa [List.map_cons, List.getD_cons_succ] using ih n

/-- `getD` preserves a predicate held by all elements and by the default. -/
theorem getD_pred {α : Type} (P : α → Prop) :
    ∀ (l : List α) (dflt : α) (i : ℕ), (∀ a ∈ l, P a) → P dflt → P (l.getD i dflt) := by
  intro l
  induction l with
  | nil =>
    intro dflt i _ hd
    simpa [List.getD_nil] using hd
  | cons a t ih =>
    intro dflt i hall hd
    cases i with
    | zero => simpa [List.getD_cons_zero] using hall a (List.mem_cons_self a t)
    | succ n =>
      simpa [List.getD_cons_succ] using
        ih dflt n (fun b hb => hall b (List.mem_cons_of_mem a hb)) hd

/-- Every pair of the zipped grid carries the simulated final position of
its own angle. -/
theorem zip_map_snd (sim : ℚ → Traj) :
    ∀ (l : List ℚ) (q : ℚ × ℚ),
      q ∈ l.zip ((l.map sim).map finalX) → q.2 = finalX (sim q.1) := by
  intro l
  induction l with
  | nil =>
    intro q h
    simp at h
  | cons a t ih =>
    intro q h
    simp only [List.map_cons, List.zip_cons_cons, List.mem_cons] at h
    rcases h with rfl | h
    · rfl
    · exact ih q h

/-- A successful bracket scan returns angles drawn from the scanned pairs. -/
theorem bracketScan_angles (d : ℚ) (P : ℚ → Prop) :
    ∀ (rest : List (ℚ × ℚ)) (prev : ℚ × ℚ), P prev.1 → (∀ q ∈ rest, P q.1) →
      ∀ lo hi, bracketScan d prev rest = some (lo, hi) → P lo ∧ P hi := by
  intro rest
  induction rest with
  | nil =>
    intro prev hp hq lo hi h
    simp [bracketScan] at h
  | cons q rest ih =>
    intro prev hp hq lo hi h
    simp only [bracketScan] at h
    split_ifs at h with hc
    · simp only [Option.some.injEq, Prod.mk.injEq] at h
      obtain ⟨h1, h2⟩ := h
      subst h1
      subst h2
      exact ⟨hp, hq q (List.mem_cons_self q rest)⟩
    · exact ih q (hq q (List.mem_cons_self q rest))
        (fun r hr => hq r (List.mem_cons_of_mem q hr)) lo hi h

/-- Key property of the bracket scan: because it returns the first
adjacent pair whose residual product is nonpositive, every scanned value
before the bracket — in particular the bracket's low endpoint — shares the
strict sign of the first sample's residual `x0 − d` (given as the sign
hypothesis on the initial `prev`). -/
theorem bracketScan_sign (sim : ℚ → Traj) (d x0 : ℚ) :
    ∀ (rest : List (ℚ × ℚ)) (prev : ℚ × ℚ),
      (∀ q ∈ rest, q.2 = finalX (sim q.1)) →
      prev.2 = finalX (sim prev.1) →
      0 < (prev.2 - d) * (x0 - d) →
      ∀ lo hi, bracketScan d prev rest = some (lo, hi) →
        0 < (finalX (sim lo) - d) * (x0 - d) ∧
        (finalX (sim lo) - d) * (finalX (sim hi) - d) ≤ 0 := by
  intro rest
  induction rest with
  | nil =>
    intro prev hmem hprev hsign lo hi h
    simp [bracketScan] at h
  | cons q rest ih =>
    intro prev hmem hprev hsign lo hi h
    simp only [bracketScan] at h
    split_ifs at h with hc
    · simp only [Option.some.injEq, Prod.mk.injEq] at h
      obtain ⟨h1, h2⟩ := h
      subst h1
      subst h2
      constructor
      · rw [← hprev]
        exact hsign
      · rw [← hprev, ← hmem q (List.mem_cons_self q rest)]
        exact hc
    · have hq2 : q.2 = finalX (sim q.1) := hmem q (List.mem_cons_self q rest)
      have h1 : 0 < (q.2 - d) * (prev.2 - d) := by
        rw [mul_comm]
        exact not_le.mp hc
      have h2 : 0 < (x0 - d) * (prev.2 - d) := by
        rw [mul_comm]
        exact hsign
      have hqs : 0 < (q.2 - d) * (x0 - d) := mul_sign_trans h1 h2
      exact ih q (fun r hr => hmem r (List.mem_cons_of_mem q hr)) hq2 hqs lo hi h

/-- The straddle invariant of the bisection narrowing, strengthened with
the sign link to the first grid sample: both are preserved by every
narrowing step. -/
theorem narrowIter_invariant (sim : ℚ → Traj) (d x0 : ℚ) :
    ∀ (k : ℕ) (lo hi lo2 hi2 : ℚ),
      0 < (finalX (sim lo) - d) * (x0 - d) →
      (finalX (sim lo) - d) * (finalX (sim hi) - d) ≤ 0 →
      narrowIter sim d x0 k (lo, hi) = some (lo2, hi2) →
      0 < (finalX (sim lo2) - d) * (x0 - d) ∧
      (finalX (sim lo2) - d) * (finalX (sim hi2) - d) ≤ 0 := by
  intro k
  induction k with
  | zero =>
    intro lo hi lo2 hi2 h1 h2 hit
    simp only [narrowIter, Option.some.injEq, Prod.mk.injEq] at hit
    obtain ⟨e1, e2⟩ := hit
    subst e1
    subst e2
    exact ⟨h1, h2⟩
  | succ n ih =>
    intro lo hi lo2 hi2 h1 h2 hit
    simp only [narrowIter] at hit
    rcases hstep : narrowStep sim d x0 lo hi with _ | ⟨lo1, hi1⟩
    · rw [hstep] at hit
      simp at hit
    · rw [hstep] at hit
      simp only at hit
      simp only [narrowStep] at hstep
      split_ifs at hstep with hc1 hc2
      · simp only [Option.some.injEq, Prod.mk.injEq] at hstep
        obtain ⟨e1, e2⟩ := hstep
        subst e1
        subst e2
        exact ih _ _ _ _ h1 (opp_sign_transfer h1 hc2) hit
      · simp only [Option.some.injEq, Prod.mk.injEq] at hstep
        obtain ⟨e1, e2⟩ := hstep
        subst e1
        subst e2
        have hxm : finalX (sim ((lo + hi) / 2)) - d ≠ 0 := by
          intro h0
          have habs := not_lt.mp hc1
          rw [h0, abs_zero] at habs
          linarith
        have hx0 : x0 - d ≠ 0 := right_ne_zero_of_mul h1.ne'
        have hpos : 0 < (finalX (sim ((lo + hi) / 2)) - d) * (x0 - d) :=
          lt_of_le_of_ne (not_lt.mp hc2) (Ne.symm (mul_ne_zero hxm hx0))
        exact ih _ _ _ _ hpos (straddle_transfer h1 hpos h2) hit

/-- The bisection loop's recursion follows exactly the `narrowStep`
narrowing: a successful step turns one loop iteration into the loop on the
narrowed bracket. -/
theorem bisectLoop_narrowStep (sim : ℚ → Traj) (d x0 : ℚ) (n : ℕ) (lo hi lo2 hi2 : ℚ)
    (h : narrowStep sim d x0 lo hi = some (lo2, hi2)) :
    bisectLoop sim d x0 (n + 1) lo hi = bisectLoop sim d x0 n lo2 hi2 := by
  simp only [narrowStep] at h
  split_ifs at h with hc1 hc2
  · simp only [Option.some.injEq, Prod.mk.injEq] at h
    obtain ⟨e1, e2⟩ := h
    subst e1
    subst e2
    simp only [bisectLoop]
    rw [if_neg hc1, if_pos hc2]
  · simp only [Option.some.injEq, Prod.mk.injEq] at h
    obtain ⟨e1, e2⟩ := h
    subst e1
    subst e2
    simp only [bisectLoop]
    rw [if_neg hc1, if_neg hc2]

/-- The bisection loop never leaves the numeric range spanned by its
bracket endpoints: the returned angle stays within [0, 75] whenever both
endpoints do. -/
theorem bisectLoop_angle_range (sim : ℚ → Traj) (d x0 : ℚ) :
    ∀ (n : ℕ) (lo hi : ℚ), 0 ≤ lo → lo ≤ 75 → 0 ≤ hi → hi ≤ 75 →
      0 ≤ (bisectLoop sim d x0 n lo hi).2.2.2 ∧ (bisectLoop sim d x0 n lo hi).2.2.2 ≤ 75 := by
  intro n
  induction n with
  | zero =>
    intro lo hi h1 h2 h3 h4
    simp only [bisectLoop]
    split_ifs
    · exact ⟨h1, h2⟩
    · exact ⟨h3, h4⟩
  | succ n ih =>
    intro lo hi h1 h2 h3 h4
    have hm1 : 0 ≤ (lo + hi) / 2 := by linarith
    have hm2 : (lo + hi) / 2 ≤ 75 := by linarith
    simp only [bisectLoop]
    split_ifs
    · exact ⟨hm1, hm2⟩
    · exact ih lo ((lo + hi) / 2) h1 h2 hm1 hm2
    · exact ih ((lo + hi) / 2) hi hm1 hm2 h3 h4

/-- Every non-sentinel outcome of the angle search carries an angle inside
the numeric range of the grid, for any grid within [0, 75]. -/
theorem optAngleCore_angle_range (gs : List ℚ) (sim : ℚ → Traj) (d : ℚ)
    (hgs : ∀ a ∈ gs, 0 ≤ a ∧ a ≤ 75) :
    (optAngleCore gs sim d).2.2.2 = -1 ∨
      (0 ≤ (optAngleCore gs sim d).2.2.2 ∧ (optAngleCore gs sim d).2.2.2 ≤ 75) := by
  simp only [optAngleCore]
  split_ifs with hmax
  · left
    rfl
  · right
    cases gs with
    | nil =>
      norm_num [bracketScan, argminAbsIdx, withAngle, List.getD_nil]
    | cons a t =>
      simp only [List.map_cons, List.zip_cons_cons, List.headD_cons, List.tail_cons,
        List.headD_cons]
      rcases hscan : bracketScan d (a, finalX (sim a)) (t.zip ((t.map sim).map finalX))
        with _ | ⟨lo, hi⟩
      · exact getD_pred (fun q => 0 ≤ q ∧ q ≤ 75) (a :: t) 0 _ hgs ⟨le_refl 0, by norm_num⟩
      · have hrest : ∀ q ∈ t.zip ((t.map sim).map finalX), 0 ≤ q.1 ∧ q.1 ≤ 75 := by
          intro q hq
          exact hgs q.1 (List.mem_cons_of_mem a (List.of_mem_zip hq).1)
        obtain ⟨⟨hlo1, hlo2⟩, hhi1, hhi2⟩ :=
          bracketScan_angles d (fun q => 0 ≤ q ∧ q ≤ 75)
            (t.zip ((t.map sim).map finalX)) (a, finalX (sim a))
            (hgs a (List.mem_cons_self a t)) hrest lo hi hscan
        exact bisectLoop_angle_range sim d _ 16 lo hi hlo1 hlo2 hhi1 hhi2

/-- Claim C2: when the requested distance exceeds every sampled final
position of the coarse 0–75° grid, the solver returns the sentinel angle −1
together with the grid result at the first index attaining the maximum
sampled range (whose final position is exactly the sampled maximum), and
it does so totally — no exception. -/
theorem c2_unreachable_sentinel :
    ∀ (sim : ℚ → Traj) (distance : ℚ),
      (∀ a ∈ angle_samples, finalXAt sim a < distance) →
      ballistic_trajectory_with_drag_opt_angle sim distance none
          = withAngle ((angle_samples.map sim).getD
              (argmaxIdx ((angle_samples.map sim).map finalX)) (0, 0, 0, 0)) (-1) ∧
        (ballistic_trajectory_with_drag_opt_angle sim distance none).2.2.2 = -1 ∧
        finalX ((angle_samples.map sim).getD
            (argmaxIdx ((angle_samples.map sim).map finalX)) (0, 0, 0, 0))
          = maxListQ ((angle_samples.map sim).map finalX) := by
  intro sim distance hall
  have hne : (angle_samples.map sim).map finalX ≠ [] := by
    intro h
    have hlen : ((angle_samples.map sim).map finalX).length = 30 := by
      rw [List.length_map, List.length_map]
      unfold angle_samples
      rw [List.length_map, List.length_range]
    rw [h] at hlen
    exact absurd hlen (by norm_num)
  have hltall : ∀ y ∈ (angle_samples.map sim).map finalX, y < distance := by
    intro y hy
    rw [List.map_map] at hy
    obtain ⟨a, ha, rfl⟩ := List.mem_map.mp hy
    exact hall a ha
  have hmax : maxListQ ((angle_samples.map sim).map finalX) < distance :=
    maxListQ_lt distance _ hne hltall
  have h1 : ballistic_trajectory_with_drag_opt_angle sim distance none
      = withAngle ((angle_samples.map sim).getD
          (argmaxIdx ((angle_samples.map sim).map finalX)) (0, 0, 0, 0)) (-1) := by
    show optAngleCore angle_samples sim distance = _
    simp only [optAngleCore]
    rw [if_pos hmax]
  refine ⟨h1, ?_, ?_⟩
  · rw [h1]
    rfl
  · rw [← getD_map_finalX]
    exact argmaxIdx_getD _ hne

/-- Witness for C2: a simulation whose final position is always 0 cannot
reach distance 1; the solver reports the sentinel. -/
theorem c2_unreachable_sentinel_witness :
    ballistic_trajectory_with_drag_opt_angle (fun _ => (0, 0, 0, 0)) 1 none
      = (0, 0, 0, -1) := by
  have h := c2_unreachable_sentinel (fun _ => (0, 0, 0, 0)) 1
    (fun a _ => by norm_num [finalXAt, finalX])
  rw [h.1]
  have hc : ((angle_samples.map (fun _ => ((0 : ℚ), (0 : ℚ), (0 : ℚ), (0 : ℚ)))).getD
      (argmaxIdx ((angle_samples.map
        (fun _ => ((0 : ℚ), (0 : ℚ), (0 : ℚ), (0 : ℚ)))).map finalX)) (0, 0, 0, 0))
      = (0, 0, 0, 0) := by
    apply getD_pred (fun r => r = ((0 : ℚ), (0 : ℚ), (0 : ℚ), (0 : ℚ)))
    · intro r hr
      obtain ⟨a, _, rfl⟩ := List.mem_map.mp hr
      rfl
    · rfl
  rw [hc]
  rfl

/-- Counterexample for C3 as stated: with a simulation whose first grid
sample lands exactly on the target, a bracketing pair is found, yet after
one narrowing step the bracket no longer straddles the target (both
residuals are strictly positive) — the narrowing compares against the
first sample's (zero) residual rather than the local bracket's. -/
theorem c3_bisection_straddle_cex :
    bracketScan 0
        ((angle_samples.zip ((angle_samples.map simDegenerate).map finalX)).headD (0, 0))
        (angle_samples.zip ((angle_samples.map simDegenerate).map finalX)).tail
      = some (0, 75 / 29) ∧
    narrowIter simDegenerate 0 (((angle_samples.map simDegenerate).map finalX).headD 0) 1
        (0, 75 / 29) = some (75 / 58, 75 / 29) ∧
    0 < (finalXAt simDegenerate (75 / 58) - 0) * (finalXAt simDegenerate (75 / 29) - 0) := by
  rw [angle_samples_eval]
  norm_num [bracketScan, narrowIter, narrowStep, simDegenerate, finalX, finalXAt, abs_lt]

/-- Claim C3 (amended): whenever the first grid sample does not land
exactly on the target (x_vals[0] ≠ distance), the bracket found by the
grid scan straddles the target after every narrowing step of the bisection
— comparing against the first sample's sign is then equivalent to
comparing against the local bracket's sign, so the invariant survives even
non-monotonic range-versus-angle curves. -/
theorem c3_bisection_straddle :
    ∀ (sim : ℚ → Traj) (d lo0 hi0 : ℚ) (k : ℕ) (lo hi : ℚ),
      ((angle_samples.map sim).map finalX).headD 0 ≠ d →
      bracketScan d ((angle_samples.zip ((angle_samples.map sim).map finalX)).headD (0, 0))
          (angle_samples.zip ((angle_samples.map sim).map finalX)).tail = some (lo0, hi0) →
      narrowIter sim d (((angle_samples.map sim).map finalX).headD 0) k (lo0, hi0)
        = some (lo, hi) →
      (finalXAt sim lo - d) * (finalXAt sim hi - d) ≤ 0 := by
  intro sim d lo0 hi0 k lo hi hx0 hscan hiter
  obtain ⟨t, ht⟩ : ∃ t, angle_samples = 0 :: t :=
    ⟨angle_samples.tail, by rw [angle_samples_eval]; rfl⟩
  rw [ht] at hscan hx0 hiter
  simp only [List.map_cons, List.zip_cons_cons, List.headD_cons, List.tail_cons]
    at hscan hx0 hiter
  have hsign0 : 0 < (finalX (sim 0) - d) * (finalX (sim 0) - d) :=
    mul_self_pos.mpr (sub_ne_zero.mpr hx0)
  obtain ⟨hinv1, hinv2⟩ :=
    bracketScan_sign sim d (finalX (sim 0)) (t.zip ((t.map sim).map finalX))
      (0, finalX (sim 0)) (fun q hq => zip_map_snd sim t q hq) rfl hsign0 lo0 hi0 hscan
  exact (narrowIter_invariant sim d (finalX (sim 0)) k lo0 hi0 lo hi hinv1 hinv2 hiter).2

/-- Witness for C3 (amended) on a concrete monotone simulation: bracket
(375/29, 450/29) around target 40; one narrowing step yields
(375/29, 825/58), which still straddles. -/
theorem c3_bisection_straddle_witness :
    (finalXAt (fun a => ((0 : ℚ), (0 : ℚ), (0 : ℚ), 3 * a)) (375 / 29) - 40) *
        (finalXAt (fun a => ((0 : ℚ), (0 : ℚ), (0 : ℚ), 3 * a)) (825 / 58) - 40) ≤ 0 :=
  c3_bisection_straddle (fun a => (0, 0, 0, 3 * a)) 40 (375 / 29) (450 / 29) 1 (375 / 29)
    (825 / 58) (by rw [angle_samples_eval]; norm_num [finalX])
    (by rw [angle_samples_eval]; norm_num [bracketScan, finalX])
    (by rw [angle_samples_eval]; norm_num [narrowIter, narrowStep, finalX, abs_lt])

/-- Evaluation of the search on the constant simulation landing at 10 m
with target 5 m: no bracketing pair exists, the fallback returns the first
grid sample (angle 0). -/
theorem optAngleSearch_const10 :
    ballistic_trajectory_with_drag_opt_angle (fun _ => ((0 : ℚ), (0 : ℚ), (0 : ℚ), (10 : ℚ)))
        5 none = (0, 0, 0, 0) := by
  show optAngleCore angle_samples (fun _ => ((0 : ℚ), (0 : ℚ), (0 : ℚ), (10 : ℚ))) 5
      = (0, 0, 0, 0)
  rw [angle_samples_eval]
  norm_num [optAngleCore, maxListQ, bracketScan, argminAbsIdx, argminAbsGo, withAngle,
    finalX]

/-- Counterexample for C4 as stated: a target of 5 m with every grid sample
landing at 10 m is "reachable" (below the sampled maximum), the scan finds
no bracketing pair, and the fallback returns the closest grid sample: a
non-sentinel angle (0) whose trajectory misses the target by 5 m — far
outside the 1 m tolerance. -/
theorem c4_tolerance_cex :
    ballistic_trajectory_with_drag_opt_angle (fun _ => (0, 0, 0, 10)) 5 none
        = (0, 0, 0, 0) ∧
      ((0 : ℚ) ≠ -1) ∧ ¬(|finalXAt (fun _ => (0, 0, 0, 10)) 0 - 5| < 1) :=
  ⟨optAngleSearch_const10, by norm_num, by norm_num [finalXAt, finalX, abs_lt]⟩

/-- Claim C4 (amended): every non-sentinel result of the angle search
carries an angle within [0, 75]; the 1 m tolerance on the returned
trajectory is guaranteed only on the early-convergence path of the
bisection, not on budget exhaustion or on a failed bracket scan. -/
theorem c4_solver_angle_in_bracket :
    ∀ (sim : ℚ → Traj) (distance : ℚ),
      (ballistic_trajectory_with_drag_opt_angle sim distance none).2.2.2 ≠ -1 →
      0 ≤ (ballistic_trajectory_with_drag_opt_angle sim distance none).2.2.2 ∧
        (ballistic_trajectory_with_drag_opt_angle sim distance none).2.2.2 ≤ 75 := by
  intro sim distance hne
  have h := optAngleCore_angle_range angle_samples sim distance angle_samples_bounds
  have he : ballistic_trajectory_with_drag_opt_angle sim distance none
      = optAngleCore angle_samples sim distance := rfl
  rw [he] at hne ⊢
  rcases h with h | h
  · exact absurd h hne
  · exact h

/-- Witness for C4 (amended) at the fallback-path input. -/
theorem c4_solver_angle_in_bracket_witness :
    0 ≤ (ballistic_trajectory_with_drag_opt_angle (fun _ => (0, 0, 0, 10)) 5 none).2.2.2 ∧
      (ballistic_trajectory_with_drag_opt_angle (fun _ => (0, 0, 0, 10)) 5 none).2.2.2 ≤ 75 :=
  c4_solver_angle_in_bracket (fun _ => (0, 0, 0, 10)) 5
    (by rw [optAngleSearch_const10]; norm_num)

end Relativity
